import Mathlib

/-!
Shallow embedding of the AndorCameras.jl build tools:

* `src/deps/gendeps.c`  — the current (bare-name) binding generator; its
  `main` writes a Julia module to standard output, line by line, and
  returns 0.  Emitted lines are modelled by the `Line` inductive and the
  whole run by `gendepsLines` / `gendepsMain` / `gendepsRun`.
* `src/deps/gencode.c`  — the historical (AT_-prefixed) generator,
  modelled by `gencodeLines` / `gencodeMain` / `gencodeRun`.
* `src/deps/reset-zyla.c` — the USB reset utility, modelled by
  `resetZylaMain` together with a trace of file-handle events.

The build environment (which vendor macros the installed SDK defines,
whether the host is Linux, the values of the host macros, the path of
the vendor dynamic library) is a parameter `BuildEnv`.  The widths and
signedness of the probed C types form a second parameter `TypeEnv`,
consulted by the sign-probe macros of the source but (as proved below)
not by the emitted type-alias lines.
-/

/-- Printf-style numeric format used by the generator's catalogs:
`%d` (decimal) or `0x%X` (upper-case hexadecimal of the value converted
to `unsigned int`). -/
inductive Fmt where
  | dec
  | hex
deriving DecidableEq, Repr

/-- One emitted output line of either generator.

* `text`      — a verbatim comment or blank line (`puts`/`printf` of a literal);
* `dll`       — the `const _DLL = "<path>"` declaration;
* `typeAlias` — one of the literal type-alias lines of the types section;
* `cnst`      — a `const <name> = <typ>(<value>)` line produced by
  `DEF_CONST`/`DEF_AT_CONST` from a vendor macro;
* `plain`     — a `const <name> = <value><trailing>` line produced by
  `DEF_CONST` from a host-OS macro (Linux branch of gendeps). -/
inductive Line where
  | text (s : String)
  | dll (path : String)
  | typeAlias (raw : String)
  | cnst (name : String) (typ : String) (value : Int) (fmt : Fmt)
  | plain (name : String) (value : Nat) (trailing : String)
deriving DecidableEq, Repr

/-- Widths (in bytes, `sizeof`) and signedness of the C types underlying
the emitted aliases, as the compiling platform fixes them. -/
structure TypeEnv where
  cintSize : Nat
  at64Size : Nat
  u8Size : Nat
  u8Signed : Bool
  wcharSize : Nat
  wcharSigned : Bool
  cuintSize : Nat

/-- The compile-time build environment of the generators: the dynamic
library path substituted for `AT_DLL`, whether `__linux__` is defined,
the set of vendor/feature macros the installed SDK headers define
(name, with its integer value), and the values of the two Linux host
macros used by the platform-extension branch. -/
structure BuildEnv where
  dll : String
  linux : Bool
  defines : String → Option Int
  usbdevfsReset : Nat
  oWronly : Nat

/-- `SET_ALL_BITS` result: the all-one-bits value of an integer type of
`sz` bytes, read back under the type's own comparison semantics
(two's-complement signed gives `-1`, unsigned gives `2^(8*sz) - 1`). -/
def allOnes (sz : Nat) (signed : Bool) : Int :=
  if signed then -1 else 2 ^ (8 * sz) - 1

/-- The `IS_SIGNED` / `lval < 0` test of the sign probe. -/
def IS_SIGNED (v : Int) : Bool := decide (v < 0)

/-- The `DEF_TYPEOF_TYPE` macro of both generators: emit
`const _typeof_<type><space> = <U?>Int<8*sizeof>`, with the `U` decided
by the all-one-bits sign test on a value of the type. -/
def DEF_TYPEOF_TYPE (typeName space : String) (sz : Nat) (signed : Bool) : String :=
  "const _typeof_" ++ typeName ++ space ++ " = "
    ++ (if IS_SIGNED (allOnes sz signed) then "" else "U")
    ++ "Int" ++ toString (8 * sz)

/-- A catalog entry of the bare-name generator: the suffix written once
in the source (`DEF_AT_CONST(<bare>, " = <typ>(<fmt>)")`). -/
structure AtConst where
  bare : String
  typ : String
  fmt : Fmt
deriving DecidableEq, Repr

/-- The vendor macro guarding (and valued by) an `AtConst` entry:
`JOIN(AT_, name)` of the `DEF_AT_CONST` macro. -/
def atMacroName (e : AtConst) : String := "AT_" ++ e.bare

/-- One `#ifdef AT_<bare> DEF_AT_CONST(<bare>, ...) #endif` block of
gendeps: emits the line iff the vendor macro is defined, valued by it. -/
def defAtConst (defines : String → Option Int) (e : AtConst) : Option Line :=
  (defines (atMacroName e)).map (fun v => Line.cnst e.bare e.typ v e.fmt)

/-- A catalog entry of the historical prefixed generator
(`DEF_CONST(<name>, " = <typ>(<fmt>)")`, full macro name written out). -/
structure CEntry where
  name : String
  typ : String
  fmt : Fmt
deriving DecidableEq, Repr

/-- One `#ifdef <name> DEF_CONST(<name>, ...) #endif` block of gencode. -/
def defConst (defines : String → Option Int) (e : CEntry) : Option Line :=
  (defines e.name).map (fun v => Line.cnst e.name e.typ v e.fmt)

/-- Banner of `gendeps.c` `main` (the thirteen leading `puts` calls). -/
def gendepsBanner : List Line :=
  [ Line.text "#",
    Line.text "# deps.jl --",
    Line.text "#",
    Line.text "# Definitions of types and constants for interfacing Andor cameras in Julia.",
    Line.text "#",
    Line.text "# *DO NOT EDIT* as this file is automatically generated for your machine.",
    Line.text "#",
    Line.text "#------------------------------------------------------------------------------",
    Line.text "#",
    Line.text "# This file is part of \"AndorCameras.jl\" released under the MIT license.",
    Line.text "#",
    Line.text "# Copyright (C) 2017-2019, Éric Thiébaut.",
    Line.text "#" ]

/-- The thirteen literal type-alias lines of gendeps (source lines
116-132, including the `#else` branch taken for `FEATURE`). -/
def gendepsTypeAliases : List Line :=
  [ Line.typeAlias "const STATUS  = Cint     # for returned status",
    Line.typeAlias "const HANDLE  = Cint     # AT_H in <atcore.h>",
    Line.typeAlias "const INDEX   = Cint     # for camera index",
    Line.typeAlias "const ENUM    = Cint     # for enumeration",
    Line.typeAlias "const BOOL    = Cint",
    Line.typeAlias "const INT     = Int64    # AT_64 in <atcore.h>",
    Line.typeAlias "const FLOAT   = Cdouble",
    Line.typeAlias "const BYTE    = UInt8    # AT_U8 in <atcore.h>",
    Line.typeAlias "const WCHAR   = Cwchar_t # AT_WC in <atcore.h>",
    Line.typeAlias "const STRING  = Cwstring",
    Line.typeAlias "const FEATURE = Ptr{WCHAR}",
    Line.typeAlias "const LENGTH  = Cint     # for string length",
    Line.typeAlias "const MSEC    = Cuint    # for timeout in milliseconds" ]

/-- The handle/boolean/timeout sentinel entries of gendeps
(source lines 135-149), in emission order. -/
def sentinelCatalog : List AtConst :=
  [ ⟨"INFINITE", "MSEC", Fmt.hex⟩,
    ⟨"TRUE", "BOOL", Fmt.dec⟩,
    ⟨"FALSE", "BOOL", Fmt.dec⟩,
    ⟨"HANDLE_UNINITIALISED", "HANDLE", Fmt.dec⟩,
    ⟨"HANDLE_SYSTEM", "HANDLE", Fmt.dec⟩ ]

/-- The status/error-code entries of gendeps (source lines 156-281),
in emission order. -/
def statusCatalog : List AtConst :=
  [ ⟨"SUCCESS", "STATUS", Fmt.dec⟩,
    ⟨"CALLBACK_SUCCESS", "STATUS", Fmt.dec⟩,
    ⟨"ERR_NOTINITIALISED", "STATUS", Fmt.dec⟩,
    ⟨"ERR_NOTIMPLEMENTED", "STATUS", Fmt.dec⟩,
    ⟨"ERR_READONLY", "STATUS", Fmt.dec⟩,
    ⟨"ERR_NOTREADABLE", "STATUS", Fmt.dec⟩,
    ⟨"ERR_NOTWRITABLE", "STATUS", Fmt.dec⟩,
    ⟨"ERR_OUTOFRANGE", "STATUS", Fmt.dec⟩,
    ⟨"ERR_INDEXNOTAVAILABLE", "STATUS", Fmt.dec⟩,
    ⟨"ERR_INDEXNOTIMPLEMENTED", "STATUS", Fmt.dec⟩,
    ⟨"ERR_EXCEEDEDMAXSTRINGLENGTH", "STATUS", Fmt.dec⟩,
    ⟨"ERR_CONNECTION", "STATUS", Fmt.dec⟩,
    ⟨"ERR_NODATA", "STATUS", Fmt.dec⟩,
    ⟨"ERR_INVALIDHANDLE", "STATUS", Fmt.dec⟩,
    ⟨"ERR_TIMEDOUT", "STATUS", Fmt.dec⟩,
    ⟨"ERR_BUFFERFULL", "STATUS", Fmt.dec⟩,
    ⟨"ERR_INVALIDSIZE", "STATUS", Fmt.dec⟩,
    ⟨"ERR_INVALIDALIGNMENT", "STATUS", Fmt.dec⟩,
    ⟨"ERR_COMM", "STATUS", Fmt.dec⟩,
    ⟨"ERR_STRINGNOTAVAILABLE", "STATUS", Fmt.dec⟩,
    ⟨"ERR_STRINGNOTIMPLEMENTED", "STATUS", Fmt.dec⟩,
    ⟨"ERR_NULL_FEATURE", "STATUS", Fmt.dec⟩,
    ⟨"ERR_NULL_HANDLE", "STATUS", Fmt.dec⟩,
    ⟨"ERR_NULL_IMPLEMENTED_VAR", "STATUS", Fmt.dec⟩,
    ⟨"ERR_NULL_READABLE_VAR", "STATUS", Fmt.dec⟩,
    ⟨"ERR_NULL_READONLY_VAR", "STATUS", Fmt.dec⟩,
    ⟨"ERR_NULL_WRITABLE_VAR", "STATUS", Fmt.dec⟩,
    ⟨"ERR_NULL_MINVALUE", "STATUS", Fmt.dec⟩,
    ⟨"ERR_NULL_MAXVALUE", "STATUS", Fmt.dec⟩,
    ⟨"ERR_NULL_VALUE", "STATUS", Fmt.dec⟩,
    ⟨"ERR_NULL_STRING", "STATUS", Fmt.dec⟩,
    ⟨"ERR_NULL_COUNT_VAR", "STATUS", Fmt.dec⟩,
    ⟨"ERR_NULL_ISAVAILABLE_VAR", "STATUS", Fmt.dec⟩,
    ⟨"ERR_NULL_MAXSTRINGLENGTH", "STATUS", Fmt.dec⟩,
    ⟨"ERR_NULL_EVCALLBACK", "STATUS", Fmt.dec⟩,
    ⟨"ERR_NULL_QUEUE_PTR", "STATUS", Fmt.dec⟩,
    ⟨"ERR_NULL_WAIT_PTR", "STATUS", Fmt.dec⟩,
    ⟨"ERR_NULL_PTRSIZE", "STATUS", Fmt.dec⟩,
    ⟨"ERR_NOMEMORY", "STATUS", Fmt.dec⟩,
    ⟨"ERR_DEVICEINUSE", "STATUS", Fmt.dec⟩,
    ⟨"ERR_DEVICENOTFOUND", "STATUS", Fmt.dec⟩,
    ⟨"ERR_HARDWARE_OVERFLOW", "STATUS", Fmt.dec⟩ ]

/-- The `#ifdef __linux__` platform-extension block of gendeps
(source lines 150-153). -/
def linuxLines (env : BuildEnv) : List Line :=
  [ Line.plain "USBDEVFS_RESET" env.usbdevfsReset
      " # ioctl() request to reset USB device",
    Line.plain "O_WRONLY" env.oWronly "" ]

/-- Everything gendeps's `main` emits up to and including the types
section (source lines 98-132). -/
def gendepsHead (env : BuildEnv) : List Line :=
  gendepsBanner
    ++ [Line.text "", Line.text "# Path to the dynamic library."]
    ++ [Line.dll env.dll]
    ++ [Line.text "", Line.text "# Types."]
    ++ gendepsTypeAliases

/-- Everything gendeps's `main` emits after the types section
(source lines 133-281): the constants section (sentinels, then the
Linux-only platform extensions), then the status-codes section. -/
def gendepsTail (env : BuildEnv) : List Line :=
  [Line.text "", Line.text "# Constants."]
    ++ List.filterMap (defAtConst env.defines) sentinelCatalog
    ++ (if env.linux then linuxLines env else [])
    ++ [Line.text "", Line.text "# Status codes."]
    ++ List.filterMap (defAtConst env.defines) statusCatalog

/-- The full emission sequence of gendeps's `main`. -/
def gendepsLines (env : BuildEnv) : List Line :=
  gendepsHead env ++ gendepsTail env

/-- gendeps's `main` as a function of every input it is handed:
the probed type environment, the build environment and the command
line.  Neither the type environment nor `argv` is consulted. -/
def gendepsMain (_tenv : TypeEnv) (env : BuildEnv) (_argv : List String) : List Line :=
  gendepsLines env

/-- The thirteen literal type-alias lines of gencode (source lines
89-101). -/
def gencodeTypeAliases : List Line :=
  [ Line.typeAlias "const AT_STATUS  = Cint     # for returned status",
    Line.typeAlias "const AT_HANDLE  = Cint     # AT_H in <atcore.h>",
    Line.typeAlias "const AT_INDEX   = Cint     # for camera index",
    Line.typeAlias "const AT_ENUM    = Cint     # for enumeration",
    Line.typeAlias "const AT_BOOL    = Cint",
    Line.typeAlias "const AT_INT     = Int64    # AT_64 in <atcore.h>",
    Line.typeAlias "const AT_FLOAT   = Cdouble",
    Line.typeAlias "const AT_BYTE    = UInt8    # AT_U8 in <atcore.h>",
    Line.typeAlias "const AT_CHAR    = Cwchar_t # AT_WC in <atcore.h>",
    Line.typeAlias "const AT_STRING  = Cwstring",
    Line.typeAlias "const AT_FEATURE = Cwstring",
    Line.typeAlias "const AT_LENGTH  = Cint     # for string length",
    Line.typeAlias "const AT_MSEC    = Cuint    # for timeout in milliseconds" ]

/-- The leading non-status constants of gencode (source lines 102-110). -/
def gencodePreCatalog : List CEntry :=
  [ ⟨"AT_INFINITE", "AT_MSEC", Fmt.hex⟩,
    ⟨"AT_TRUE", "AT_BOOL", Fmt.dec⟩,
    ⟨"AT_FALSE", "AT_BOOL", Fmt.dec⟩ ]

/-- The status/error-code entries of gencode (source lines 111-236),
in emission order. -/
def gencodeStatusCatalog : List CEntry :=
  [ ⟨"AT_SUCCESS", "AT_STATUS", Fmt.dec⟩,
    ⟨"AT_CALLBACK_SUCCESS", "AT_STATUS", Fmt.dec⟩,
    ⟨"AT_ERR_NOTINITIALISED", "AT_STATUS", Fmt.dec⟩,
    ⟨"AT_ERR_NOTIMPLEMENTED", "AT_STATUS", Fmt.dec⟩,
    ⟨"AT_ERR_READONLY", "AT_STATUS", Fmt.dec⟩,
    ⟨"AT_ERR_NOTREADABLE", "AT_STATUS", Fmt.dec⟩,
    ⟨"AT_ERR_NOTWRITABLE", "AT_STATUS", Fmt.dec⟩,
    ⟨"AT_ERR_OUTOFRANGE", "AT_STATUS", Fmt.dec⟩,
    ⟨"AT_ERR_INDEXNOTAVAILABLE", "AT_STATUS", Fmt.dec⟩,
    ⟨"AT_ERR_INDEXNOTIMPLEMENTED", "AT_STATUS", Fmt.dec⟩,
    ⟨"AT_ERR_EXCEEDEDMAXSTRINGLENGTH", "AT_STATUS", Fmt.dec⟩,
    ⟨"AT_ERR_CONNECTION", "AT_STATUS", Fmt.dec⟩,
    ⟨"AT_ERR_NODATA", "AT_STATUS", Fmt.dec⟩,
    ⟨"AT_ERR_INVALIDHANDLE", "AT_STATUS", Fmt.dec⟩,
    ⟨"AT_ERR_TIMEDOUT", "AT_STATUS", Fmt.dec⟩,
    ⟨"AT_ERR_BUFFERFULL", "AT_STATUS", Fmt.dec⟩,
    ⟨"AT_ERR_INVALIDSIZE", "AT_STATUS", Fmt.dec⟩,
    ⟨"AT_ERR_INVALIDALIGNMENT", "AT_STATUS", Fmt.dec⟩,
    ⟨"AT_ERR_COMM", "AT_STATUS", Fmt.dec⟩,
    ⟨"AT_ERR_STRINGNOTAVAILABLE", "AT_STATUS", Fmt.dec⟩,
    ⟨"AT_ERR_STRINGNOTIMPLEMENTED", "AT_STATUS", Fmt.dec⟩,
    ⟨"AT_ERR_NULL_FEATURE", "AT_STATUS", Fmt.dec⟩,
    ⟨"AT_ERR_NULL_HANDLE", "AT_STATUS", Fmt.dec⟩,
    ⟨"AT_ERR_NULL_IMPLEMENTED_VAR", "AT_STATUS", Fmt.dec⟩,
    ⟨"AT_ERR_NULL_READABLE_VAR", "AT_STATUS", Fmt.dec⟩,
    ⟨"AT_ERR_NULL_READONLY_VAR", "AT_STATUS", Fmt.dec⟩,
    ⟨"AT_ERR_NULL_WRITABLE_VAR", "AT_STATUS", Fmt.dec⟩,
    ⟨"AT_ERR_NULL_MINVALUE", "AT_STATUS", Fmt.dec⟩,
    ⟨"AT_ERR_NULL_MAXVALUE", "AT_STATUS", Fmt.dec⟩,
    ⟨"AT_ERR_NULL_VALUE", "AT_STATUS", Fmt.dec⟩,
    ⟨"AT_ERR_NULL_STRING", "AT_STATUS", Fmt.dec⟩,
    ⟨"AT_ERR_NULL_COUNT_VAR", "AT_STATUS", Fmt.dec⟩,
    ⟨"AT_ERR_NULL_ISAVAILABLE_VAR", "AT_STATUS", Fmt.dec⟩,
    ⟨"AT_ERR_NULL_MAXSTRINGLENGTH", "AT_STATUS", Fmt.dec⟩,
    ⟨"AT_ERR_NULL_EVCALLBACK", "AT_STATUS", Fmt.dec⟩,
    ⟨"AT_ERR_NULL_QUEUE_PTR", "AT_STATUS", Fmt.dec⟩,
    ⟨"AT_ERR_NULL_WAIT_PTR", "AT_STATUS", Fmt.dec⟩,
    ⟨"AT_ERR_NULL_PTRSIZE", "AT_STATUS", Fmt.dec⟩,
    ⟨"AT_ERR_NOMEMORY", "AT_STATUS", Fmt.dec⟩,
    ⟨"AT_ERR_DEVICEINUSE", "AT_STATUS", Fmt.dec⟩,
    ⟨"AT_ERR_DEVICENOTFOUND", "AT_STATUS", Fmt.dec⟩,
    ⟨"AT_ERR_HARDWARE_OVERFLOW", "AT_STATUS", Fmt.dec⟩ ]

/-- The trailing handle-sentinel constants of gencode (source lines
237-242), emitted after the status codes. -/
def gencodeHandleCatalog : List CEntry :=
  [ ⟨"AT_HANDLE_UNINITIALISED", "AT_HANDLE", Fmt.dec⟩,
    ⟨"AT_HANDLE_SYSTEM", "AT_HANDLE", Fmt.dec⟩ ]

/-- The full constant catalog of gencode in source order. -/
def gencodeConstCatalog : List CEntry :=
  gencodePreCatalog ++ gencodeStatusCatalog ++ gencodeHandleCatalog

/-- The full emission sequence of gencode's `main` (source lines
88-242): the `_DLL` declaration first, then the type aliases, then the
macro-gated constants. -/
def gencodeLines (env : BuildEnv) : List Line :=
  [Line.dll env.dll] ++ gencodeTypeAliases
    ++ List.filterMap (defConst env.defines) gencodeConstCatalog

/-- gencode's `main` as a function of every input it is handed. -/
def gencodeMain (_tenv : TypeEnv) (env : BuildEnv) (_argv : List String) : List Line :=
  gencodeLines env

/-- One upper-case hexadecimal digit. -/
def hexDigitUpper : Nat → Char
  | 0 => '0' | 1 => '1' | 2 => '2' | 3 => '3' | 4 => '4'
  | 5 => '5' | 6 => '6' | 7 => '7' | 8 => '8' | 9 => '9'
  | 10 => 'A' | 11 => 'B' | 12 => 'C' | 13 => 'D' | 14 => 'E' | _ => 'F'

/-- Fuel-driven digit accumulation for `toHexUpper`. -/
def toHexUpperAux : Nat → Nat → List Char → List Char
  | 0, _, acc => acc
  | fuel + 1, n, acc =>
    if n < 16 then hexDigitUpper n :: acc
    else toHexUpperAux fuel (n / 16) (hexDigitUpper (n % 16) :: acc)

/-- Upper-case hexadecimal rendering of a natural number (`%X`). -/
def toHexUpper (n : Nat) : String := ⟨toHexUpperAux (n + 1) n []⟩

/-- Rendering of a constant's value per its printf format; `%X` converts
the value to `unsigned int` (reduction modulo `2^32`) first. -/
def fmtValue : Fmt → Int → String
  | Fmt.dec, v => toString v
  | Fmt.hex, v => "0x" ++ toHexUpper (Int.toNat (v % (2 ^ 32 : Int)))

/-- The exact text of one emitted line (without its trailing newline). -/
def renderLine : Line → String
  | Line.text s => s
  | Line.dll p => "const _DLL = \"" ++ p ++ "\""
  | Line.typeAlias raw => raw
  | Line.cnst n t v f => "const " ++ n ++ " = " ++ t ++ "(" ++ fmtValue f v ++ ")"
  | Line.plain n v trailing => "const " ++ n ++ " = " ++ toString v ++ trailing

/-- The byte content written to standard output for a line sequence. -/
def renderModule (lines : List Line) : String :=
  String.join (lines.map (fun l => renderLine l ++ "\n"))

/-- Outcome of one generator process: the emitted lines, whether every
write to standard output succeeded, and the process exit status. -/
structure RunResult where
  out : List Line
  writesOk : Bool
  exitCode : Nat
deriving Repr

/-- Whether the first `n` sequential writes all succeed, under a stream
whose `i`-th write fails iff `failAt i`. -/
def allWritesOk (failAt : Nat → Bool) (n : Nat) : Bool :=
  (List.range n).all (fun i => !failAt i)

/-- A whole gendeps process run: `main` emits its lines one write per
line, never inspects the result of `puts`/`printf`, and executes
`return 0`. -/
def gendepsRun (tenv : TypeEnv) (env : BuildEnv) (argv : List String)
    (failAt : Nat → Bool) : RunResult :=
  ⟨gendepsMain tenv env argv,
   allWritesOk failAt (gendepsMain tenv env argv).length, 0⟩

/-- A whole gencode process run, analogous to `gendepsRun`. -/
def gencodeRun (tenv : TypeEnv) (env : BuildEnv) (argv : List String)
    (failAt : Nat → Bool) : RunResult :=
  ⟨gencodeMain tenv env argv,
   allWritesOk failAt (gencodeMain tenv env argv).length, 0⟩

/-- A USB device descriptor as read by the reset utility. -/
structure UsbDevice where
  idVendor : Nat
  idProduct : Nat
deriving DecidableEq, Repr

/-- The match test of `reset-zyla.c` (idVendor 4974, idProduct 20). -/
def isZyla (d : UsbDevice) : Bool :=
  d.idVendor == 4974 && d.idProduct == 20

/-- The nested bus/device scan of `reset-zyla.c`: first matching device
in bus order, device order within a bus. -/
def findCamera : List (List UsbDevice) → Option UsbDevice
  | [] => none
  | bus :: rest =>
    match bus.find? isZyla with
    | some d => some d
    | none => findCamera rest

/-- Events on the device file handle of the reset utility. -/
inductive FdEvent where
  | opened
  | closed
deriving DecidableEq, Repr

def EXIT_SUCCESS : Nat := 0

def EXIT_FAILURE : Nat := 1

/-- `main` of `reset-zyla.c` over the USB world: bus list plus the
outcomes of `open`, the reset `ioctl`, and `close`.  Returns the exit
status and the trace of handle events, in program order:

* no matching device — error exit, no handle touched;
* `open` fails — error exit, no handle acquired;
* `ioctl` fails — error exit directly (`return EXIT_FAILURE` at source
  line 52), with no `close` call;
* `close` fails — error exit after the `close` call;
* otherwise success exit after `open` and `close`. -/
def resetZylaMain (busses : List (List UsbDevice))
    (openOk ioctlOk closeOk : Bool) : Nat × List FdEvent :=
  match findCamera busses with
  | none => (EXIT_FAILURE, [])
  | some _ =>
    if openOk = false then (EXIT_FAILURE, [])
    else if ioctlOk = false then (EXIT_FAILURE, [FdEvent.opened])
    else if closeOk = false then (EXIT_FAILURE, [FdEvent.opened, FdEvent.closed])
    else (EXIT_SUCCESS, [FdEvent.opened, FdEvent.closed])

/-- Lines that belong to one of the claim-relevant sections: the type
aliases and the constant declarations (both flavours). -/
def isSection : Line → Bool
  | Line.typeAlias _ => true
  | Line.cnst _ _ _ _ => true
  | Line.plain _ _ _ => true
  | _ => false

def isTypeAliasLine : Line → Bool
  | Line.typeAlias _ => true
  | _ => false

def isConstLine : Line → Bool
  | Line.cnst _ _ _ _ => true
  | Line.plain _ _ _ => true
  | _ => false

def isPlainLine : Line → Bool
  | Line.plain _ _ _ => true
  | _ => false

/-- A declaration line (anything that is not a comment/blank). -/
def isDeclLine : Line → Bool
  | Line.text _ => false
  | _ => true

/-- The declared name of a constant line (empty for other lines). -/
def lineName : Line → String
  | Line.cnst n _ _ _ => n
  | Line.plain n _ _ => n
  | _ => ""

/-- The bare names of the sentinel entries of gendeps. -/
def sentinelNames : List String := sentinelCatalog.map AtConst.bare

/-- The full static catalog of constant names gendeps can ever emit. -/
def catalogNames : List String :=
  (sentinelCatalog ++ statusCatalog).map AtConst.bare
    ++ ["USBDEVFS_RESET", "O_WRONLY"]

/-- Section rank of a gendeps line, in the emission order of `main`:
type aliases, then handle/boolean sentinels, then platform extensions,
then status codes. -/
def groupRank : Line → Nat
  | Line.typeAlias _ => 0
  | Line.cnst n _ _ _ => if n ∈ sentinelNames then 1 else 3
  | Line.plain _ _ _ => 2
  | _ => 0

/-- The constant names of gencode's sentinel groups (boolean/timeout
and handle sentinels). -/
def gencodeSentinelNames : List String :=
  ["AT_INFINITE", "AT_TRUE", "AT_FALSE",
   "AT_HANDLE_UNINITIALISED", "AT_HANDLE_SYSTEM"]

/-- Section rank of a gencode line under the claimed section order
(types, then sentinels, then platform extensions, then status codes). -/
def gencodeGroupRank : Line → Nat
  | Line.typeAlias _ => 0
  | Line.cnst n _ _ _ => if n ∈ gencodeSentinelNames then 1 else 3
  | Line.plain _ _ _ => 2
  | _ => 0

/-- Renaming a bare-name catalog entry to its prefixed (gencode) form. -/
def entryAT (e : AtConst) : CEntry :=
  ⟨"AT_" ++ e.bare, "AT_" ++ e.typ, e.fmt⟩

/-- Renaming an emitted constant line to its prefixed (gencode) form:
both the public name and the type-alias name gain the `AT_` prefix. -/
def lineAT : Line → Line
  | Line.cnst n t v f => Line.cnst ("AT_" ++ n) ("AT_" ++ t) v f
  | l => l

/-- A concrete SDK macro assignment: the Linux SDK 3 example of the
spec scenarios (a handful of defined macros, the rest absent). -/
def stdDefines : String → Option Int := fun s =>
  if s = "AT_INFINITE" then some 0xFFFFFFFF
  else if s = "AT_TRUE" then some 1
  else if s = "AT_FALSE" then some 0
  else if s = "AT_HANDLE_UNINITIALISED" then some (-1)
  else if s = "AT_HANDLE_SYSTEM" then some 1
  else if s = "AT_SUCCESS" then some 0
  else if s = "AT_ERR_CONNECTION" then some 17
  else none

/-- A concrete Linux build environment. -/
def envStd : BuildEnv := ⟨"libatcore.so", true, stdDefines, 21780, 1⟩

/-- A build environment whose SDK defines no vendor macro at all. -/
def envNone : BuildEnv := ⟨"libatcore.so", true, fun _ => none, 21780, 1⟩

/-- A non-Linux build environment defining exactly `AT_SUCCESS` and
`AT_HANDLE_SYSTEM` (used against gencode). -/
def envGc : BuildEnv :=
  ⟨"atcore",
   false,
   fun s => if s = "AT_SUCCESS" then some 0
            else if s = "AT_HANDLE_SYSTEM" then some 1 else none,
   0, 0⟩

/-- A commodity type environment (ILP32/LP64-style widths). -/
def tenvStd : TypeEnv := ⟨4, 8, 1, false, 4, true, 4⟩

/-- A hypothetical type environment whose byte type is a signed 16-bit
integer: the sign probe would report `Int16` for it. -/
def tenvOdd : TypeEnv := ⟨4, 8, 2, true, 4, true, 4⟩

/-- A standard-output stream on which every write fails. -/
def failAlways : Nat → Bool := fun _ => true

/-- A standard-output stream on which every write succeeds. -/
def failNever : Nat → Bool := fun _ => false

/-! ### General lemmas about the embedding -/

/-- Membership in a gendeps `#ifdef`/`DEF_AT_CONST` run: a line is
emitted iff some catalog entry's vendor macro is defined with the
line's value. -/
theorem mem_filterMap_defAtConst {defines : String → Option Int}
    {cat : List AtConst} {l : Line} :
    l ∈ List.filterMap (defAtConst defines) cat ↔
      ∃ e ∈ cat, ∃ v, defines (atMacroName e) = some v
        ∧ l = Line.cnst e.bare e.typ v e.fmt := by
  simp only [List.mem_filterMap, defAtConst, Option.map_eq_some']
  constructor
  · rintro ⟨e, he, v, hv, rfl⟩
    exact ⟨e, he, v, hv, rfl⟩
  · rintro ⟨e, he, v, hv, rfl⟩
    exact ⟨e, he, v, hv, rfl⟩

/-- Membership in a gencode `#ifdef`/`DEF_CONST` run. -/
theorem mem_filterMap_defConst {defines : String → Option Int}
    {cat : List CEntry} {l : Line} :
    l ∈ List.filterMap (defConst defines) cat ↔
      ∃ e ∈ cat, ∃ v, defines e.name = some v
        ∧ l = Line.cnst e.name e.typ v e.fmt := by
  simp only [List.mem_filterMap, defConst, Option.map_eq_some']
  constructor
  · rintro ⟨e, he, v, hv, rfl⟩
    exact ⟨e, he, v, hv, rfl⟩
  · rintro ⟨e, he, v, hv, rfl⟩
    exact ⟨e, he, v, hv, rfl⟩

/-- A plain (host-macro) line is in particular a constant line. -/
theorem isConstLine_of_isPlainLine {l : Line} (h : isPlainLine l = true) :
    isConstLine l = true := by
  cases l <;> simp_all [isPlainLine, isConstLine]

/-- Nothing in the head part of gendeps output (banner, library path,
types section) is a constant line. -/
theorem gendepsHead_all_not_const (env : BuildEnv) :
    ((gendepsHead env).all fun l => !isConstLine l) = true := rfl

/-- No constant line is a member of the gendeps head part. -/
theorem not_const_mem_gendepsHead {env : BuildEnv} {l : Line}
    (hl : l ∈ gendepsHead env) : isConstLine l = false := by
  have h := List.all_eq_true.mp (gendepsHead_all_not_const env) l hl
  simpa using h

/-- No type-alias line is a member of the gendeps tail part. -/
theorem not_typeAlias_mem_gendepsTail {env : BuildEnv} {l : Line}
    (hl : l ∈ gendepsTail env) : isTypeAliasLine l = false := by
  rw [gendepsTail] at hl
  rcases List.mem_append.mp hl with h | h
  · rcases List.mem_append.mp h with h | h
    · rcases List.mem_append.mp h with h | h
      · rcases List.mem_append.mp h with h | h
        · rcases List.mem_cons.mp h with rfl | h
          · rfl
          rcases List.mem_cons.mp h with rfl | h
          · rfl
          exact absurd h (List.not_mem_nil l)
        · rcases mem_filterMap_defAtConst.mp h with ⟨e, _, v, _, rfl⟩
          rfl
      · by_cases hx : env.linux
        · rw [if_pos hx] at h
          rcases List.mem_cons.mp h with rfl | h
          · rfl
          rcases List.mem_cons.mp h with rfl | h
          · rfl
          exact absurd h (List.not_mem_nil l)
        · rw [if_neg hx] at h
          exact absurd h (List.not_mem_nil l)
    · rcases List.mem_cons.mp h with rfl | h
      · rfl
      rcases List.mem_cons.mp h with rfl | h
      · rfl
      exact absurd h (List.not_mem_nil l)
  · rcases mem_filterMap_defAtConst.mp h with ⟨e, _, v, _, rfl⟩
    rfl

/-! ### C1 -/

/-- C1: the claim says every emitted type-alias line gets its width and
signedness from the all-one-bits sign probe, never as literal text.
Counterexample: under a type environment whose byte type is a signed
16-bit integer the probe reports `Int16`, yet the emitted `BYTE` alias
line is still the literal `UInt8` text, and the whole output is
unchanged from the commodity type environment: the widths are
hardcoded, not probed. -/
theorem c1_counterexample :
    Line.typeAlias "const BYTE    = UInt8    # AT_U8 in <atcore.h>"
        ∈ gendepsMain tenvOdd envNone []
      ∧ DEF_TYPEOF_TYPE "AT_U8" "" tenvOdd.u8Size tenvOdd.u8Signed
        = "const _typeof_AT_U8 = Int16"
      ∧ gendepsMain tenvOdd envNone [] = gendepsMain tenvStd envNone [] :=
  ⟨by decide, by decide, rfl⟩

/-- C1 (amended): the sign probe of the source (`SET_ALL_BITS` then
`lval < 0`, width `8*sizeof`) does correctly recover signedness and
width, but `main` never applies it to the emitted aliases: the type
alias lines are identical for every probed type environment, their
widths and signedness being literal text. -/
theorem c1_theorem :
    (∀ tA tB : TypeEnv, ∀ env argv,
        gendepsMain tA env argv = gendepsMain tB env argv)
      ∧ (∀ sz : Nat, ∀ s : Bool, IS_SIGNED (allOnes sz s) = s)
      ∧ (∀ typeName space : String, ∀ sz : Nat, ∀ s : Bool,
          DEF_TYPEOF_TYPE typeName space sz s
            = "const _typeof_" ++ typeName ++ space ++ " = "
              ++ (if s then "" else "U") ++ "Int" ++ toString (8 * sz)) := by
  have hsign : ∀ sz : Nat, ∀ s : Bool, IS_SIGNED (allOnes sz s) = s := by
    intro sz s
    cases s with
    | true => rfl
    | false =>
      have hpos : (0 : Int) < 2 ^ (8 * sz) := pow_pos (by norm_num) _
      simp only [IS_SIGNED, allOnes, Bool.false_eq_true, if_false,
        decide_eq_false_iff_not, not_lt]
      omega
  refine ⟨fun _ _ _ _ => rfl, hsign, ?_⟩
  intro typeName space sz s
  rw [DEF_TYPEOF_TYPE, hsign]

/-- C1 witness: the amended statement at concrete inputs. -/
theorem c1_witness :
    gendepsMain tenvOdd envStd ["x"] = gendepsMain tenvStd envStd ["x"]
      ∧ IS_SIGNED (allOnes 4 true) = true
      ∧ DEF_TYPEOF_TYPE "int" "" 4 true
        = "const _typeof_int" ++ "" ++ " = " ++ "" ++ "Int" ++ toString 32 :=
  ⟨c1_theorem.1 tenvOdd tenvStd envStd ["x"],
   c1_theorem.2.1 4 true,
   c1_theorem.2.2 "int" "" 4 true⟩

/-! ### C2 -/

/-- C2: the claim says the exit status is 0 iff every write to standard
output succeeded.  Counterexample: on a stream where every write fails,
gendeps still exits 0 (its `main` discards the `puts`/`printf` results
and executes `return 0`). -/
theorem c2_counterexample :
    ¬ (((gendepsRun tenvStd envStd [] failAlways).exitCode = 0)
        ↔ (gendepsRun tenvStd envStd [] failAlways).writesOk = true) := by
  intro h
  have hw : (gendepsRun tenvStd envStd [] failAlways).writesOk = true :=
    h.mp rfl
  exact absurd hw (by decide)

/-- C2 (amended): both generators exit with status 0 on every run,
whatever happens to the writes on standard output; a write failure is
silently ignored, not propagated. -/
theorem c2_theorem :
    ∀ tenv env argv failAt,
      (gendepsRun tenv env argv failAt).exitCode = 0
        ∧ (gencodeRun tenv env argv failAt).exitCode = 0 :=
  fun _ _ _ _ => ⟨rfl, rfl⟩

/-- C2 witness: the amended statement at concrete inputs. -/
theorem c2_witness :
    (gendepsRun tenvStd envStd [] failAlways).exitCode = 0
      ∧ (gencodeRun tenvStd envStd [] failAlways).exitCode = 0 :=
  c2_theorem tenvStd envStd [] failAlways

/-! ### C5 -/

/-- C5: for a fixed build environment, any two runs of either generator
produce byte-identical standard output, whatever the command line and
whatever the state of the output stream: the emitted bytes are a
function of the build environment alone. -/
theorem c5_theorem :
    ∀ tenv env argvA argvB failA failB,
      renderModule (gendepsRun tenv env argvA failA).out
          = renderModule (gendepsRun tenv env argvB failB).out
        ∧ renderModule (gencodeRun tenv env argvA failA).out
          = renderModule (gencodeRun tenv env argvB failB).out :=
  fun _ _ _ _ _ _ => ⟨rfl, rfl⟩

/-- C5 witness: the statement at concrete inputs. -/
theorem c5_witness :
    renderModule (gendepsRun tenvStd envStd [] failNever).out
        = renderModule (gendepsRun tenvStd envStd ["-v"] failAlways).out
      ∧ renderModule (gencodeRun tenvStd envStd [] failNever).out
        = renderModule (gencodeRun tenvStd envStd ["-v"] failAlways).out :=
  c5_theorem tenvStd envStd [] ["-v"] failNever failAlways

/-! ### C9 -/

/-- C9: the claim says every exit path after a successful `open` calls
`close`, including the failed-ioctl path.  Counterexample: with the
camera present, `open` succeeding and the reset `ioctl` failing, the
process exits (status `EXIT_FAILURE`) with the handle opened and never
closed — source line 52 returns without a `close` call. -/
theorem c9_counterexample :
    FdEvent.opened ∈ (resetZylaMain [[⟨4974, 20⟩]] true false true).2
      ∧ FdEvent.closed ∉ (resetZylaMain [[⟨4974, 20⟩]] true false true).2 := by
  decide

/-- C9 (amended): after a successful `open`, `close` is called on every
exit path except the failed-reset-ioctl path: when the `ioctl`
succeeds, an opened handle is always closed before exit; when the
`ioctl` fails, the process exits with `EXIT_FAILURE` holding the open
handle, without calling `close`. -/
theorem c9_theorem :
    ∀ (busses : List (List UsbDevice)) (openOk ioctlOk closeOk : Bool),
      (ioctlOk = true →
        FdEvent.opened ∈ (resetZylaMain busses openOk ioctlOk closeOk).2 →
        FdEvent.closed ∈ (resetZylaMain busses openOk ioctlOk closeOk).2)
      ∧ (ioctlOk = false →
          FdEvent.opened ∈ (resetZylaMain busses openOk ioctlOk closeOk).2 →
          FdEvent.closed ∉ (resetZylaMain busses openOk ioctlOk closeOk).2
            ∧ (resetZylaMain busses openOk ioctlOk closeOk).1 = EXIT_FAILURE) := by
  intro busses openOk ioctlOk closeOk
  rcases hf : findCamera busses with _ | d <;>
    cases openOk <;> cases ioctlOk <;> cases closeOk <;>
      simp [resetZylaMain, hf, EXIT_FAILURE, EXIT_SUCCESS]

/-- C9 witness: the amended statement at concrete inputs. -/
theorem c9_witness :
    FdEvent.closed ∈ (resetZylaMain [[⟨4974, 20⟩]] true true true).2 :=
  (c9_theorem [[⟨4974, 20⟩]] true true true).1 rfl (by decide)

/-! ### C10 -/

/-- C10: whatever the build environment (in particular whichever vendor
macros are defined), both generators always emit the dynamic-library
path declaration and all thirteen type-alias lines: the types section
is unconditional, only constant lines are macro-gated. -/
theorem c10_theorem :
    ∀ tenv env argv,
      Line.dll env.dll ∈ gendepsMain tenv env argv
        ∧ (∀ l ∈ gendepsTypeAliases, l ∈ gendepsMain tenv env argv)
        ∧ gendepsTypeAliases.length = 13
        ∧ Line.dll env.dll ∈ gencodeMain tenv env argv
        ∧ (∀ l ∈ gencodeTypeAliases, l ∈ gencodeMain tenv env argv)
        ∧ gencodeTypeAliases.length = 13 := by
  intro tenv env argv
  have hdll : Line.dll env.dll ∈ gendepsHead env := by
    rw [gendepsHead]
    exact List.mem_append_left _ (List.mem_append_left _
      (List.mem_append_right _ (List.mem_cons_self _ _)))
  have halias : ∀ l ∈ gendepsTypeAliases, l ∈ gendepsHead env := by
    intro l hl
    rw [gendepsHead]
    exact List.mem_append_right _ hl
  refine ⟨?_, ?_, by decide, ?_, ?_, by decide⟩
  · exact List.mem_append_left _ hdll
  · intro l hl
    exact List.mem_append_left _ (halias l hl)
  · show Line.dll env.dll ∈ [Line.dll env.dll] ++ gencodeTypeAliases
      ++ List.filterMap (defConst env.defines) gencodeConstCatalog
    exact List.mem_append_left _ (List.mem_append_left _ (List.mem_cons_self _ _))
  · intro l hl
    show l ∈ [Line.dll env.dll] ++ gencodeTypeAliases
      ++ List.filterMap (defConst env.defines) gencodeConstCatalog
    exact List.mem_append_left _ (List.mem_append_right _ hl)

/-- C10 witness: the statement at concrete inputs. -/
theorem c10_witness :
    Line.dll envNone.dll ∈ gendepsMain tenvStd envNone []
      ∧ Line.typeAlias "const MSEC    = Cuint    # for timeout in milliseconds"
        ∈ gendepsMain tenvStd envNone []
      ∧ Line.typeAlias "const AT_FEATURE = Cwstring"
        ∈ gencodeMain tenvStd envNone [] :=
  ⟨(c10_theorem tenvStd envNone []).1,
   (c10_theorem tenvStd envNone []).2.1 _ (by decide),
   (c10_theorem tenvStd envNone []).2.2.2.2.1 _ (by decide)⟩

/-! ### C6 -/

/-- C6: for every vendor constant in the catalog of the bare-name
generator, the line emitted when its vendor macro is defined carries
the macro's value, and its public name is the macro name with the
`AT_` prefix stripped — the macro name itself being derived by
concatenation (`JOIN(AT_, ·)`) from the bare suffix, which is the only
spelling stored in the catalog entry. -/
theorem c6_theorem :
    ∀ env : BuildEnv, ∀ e ∈ sentinelCatalog ++ statusCatalog, ∀ v : Int,
      env.defines (atMacroName e) = some v →
        Line.cnst e.bare e.typ v e.fmt ∈ gendepsLines env
          ∧ atMacroName e = "AT_" ++ lineName (Line.cnst e.bare e.typ v e.fmt)
          ∧ defAtConst env.defines e = some (Line.cnst e.bare e.typ v e.fmt) := by
  intro env e he v hv
  have hline : defAtConst env.defines e = some (Line.cnst e.bare e.typ v e.fmt) := by
    simp [defAtConst, hv]
  refine ⟨?_, rfl, hline⟩
  rcases List.mem_append.mp he with hs | hs
  · have hm : Line.cnst e.bare e.typ v e.fmt
        ∈ List.filterMap (defAtConst env.defines) sentinelCatalog :=
      List.mem_filterMap.mpr ⟨e, hs, hline⟩
    rw [gendepsLines, gendepsTail]
    exact List.mem_append_right _ (List.mem_append_left _ (List.mem_append_left _
      (List.mem_append_left _ (List.mem_append_right _ hm))))
  · have hm : Line.cnst e.bare e.typ v e.fmt
        ∈ List.filterMap (defAtConst env.defines) statusCatalog :=
      List.mem_filterMap.mpr ⟨e, hs, hline⟩
    rw [gendepsLines, gendepsTail]
    exact List.mem_append_right _ (List.mem_append_right _ hm)

/-- C6 witness: the statement at a concrete entry (`AT_SUCCESS` in a
Linux SDK 3 environment). -/
theorem c6_witness :
    Line.cnst "SUCCESS" "STATUS" 0 Fmt.dec ∈ gendepsLines envStd
      ∧ atMacroName ⟨"SUCCESS", "STATUS", Fmt.dec⟩
        = "AT_" ++ lineName (Line.cnst "SUCCESS" "STATUS" 0 Fmt.dec)
      ∧ defAtConst envStd.defines ⟨"SUCCESS", "STATUS", Fmt.dec⟩
        = some (Line.cnst "SUCCESS" "STATUS" 0 Fmt.dec) :=
  c6_theorem envStd ⟨"SUCCESS", "STATUS", Fmt.dec⟩ (by decide) 0 (by decide)

/-! ### C7 -/

/-- The status catalog of gencode is entry-by-entry the `AT_`-prefixed
renaming of the status catalog of gendeps. -/
theorem gencodeStatusCatalog_eq_map :
    gencodeStatusCatalog = statusCatalog.map entryAT := by decide

/-- Running gencode's `DEF_CONST` blocks over a prefixed catalog gives
exactly gendeps's `DEF_AT_CONST` output with names prefixed: the guard
macro and value lookup coincide. -/
theorem filterMap_defConst_entryAT (defines : String → Option Int) :
    ∀ cat : List AtConst,
      List.filterMap (defConst defines) (cat.map entryAT)
        = (List.filterMap (defAtConst defines) cat).map lineAT := by
  intro cat
  induction cat with
  | nil => rfl
  | cons e t ih =>
    simp only [List.map_cons, List.filterMap_cons]
    cases hd : defines (atMacroName e) with
    | none =>
      rw [atMacroName] at hd
      simp [defConst, defAtConst, entryAT, atMacroName, lineAT, hd, ih]
    | some v =>
      rw [atMacroName] at hd
      simp [defConst, defAtConst, entryAT, atMacroName, lineAT, hd, ih]

/-- C7: for any one build environment, the two historical status/error
catalogs emit the same constants with the same values, the names (both
the public name and the status type-alias name) differing only by the
`AT_` prefix; each gendeps entry has its prefixed twin in gencode, and
both generators alias the status type to `Cint`. -/
theorem c7_theorem :
    ∀ defines : String → Option Int,
      List.filterMap (defConst defines) gencodeStatusCatalog
        = (List.filterMap (defAtConst defines) statusCatalog).map lineAT
      ∧ (∀ e ∈ statusCatalog, entryAT e ∈ gencodeStatusCatalog)
      ∧ Line.typeAlias "const STATUS  = Cint     # for returned status"
          ∈ gendepsTypeAliases
      ∧ Line.typeAlias "const AT_STATUS  = Cint     # for returned status"
          ∈ gencodeTypeAliases := by
  intro defines
  refine ⟨?_, by decide, by decide, by decide⟩
  rw [gencodeStatusCatalog_eq_map]
  exact filterMap_defConst_entryAT defines statusCatalog

/-- C7 witness: the statement at a concrete macro assignment and a
concrete catalog entry. -/
theorem c7_witness :
    List.filterMap (defConst stdDefines) gencodeStatusCatalog
        = (List.filterMap (defAtConst stdDefines) statusCatalog).map lineAT
      ∧ entryAT ⟨"SUCCESS", "STATUS", Fmt.dec⟩ ∈ gencodeStatusCatalog :=
  ⟨(c7_theorem stdDefines).1,
   (c7_theorem stdDefines).2.1 ⟨"SUCCESS", "STATUS", Fmt.dec⟩ (by decide)⟩

/-! ### C8 -/

/-- C8: the claim says the emitted module text of every build begins
with a banner comment before any declaration line.  Counterexample: the
prefixed generator (gencode) emits no banner at all — the very first
line of its output is already the dynamic-library declaration. -/
theorem c8_counterexample :
    (gencodeLines envGc).head? = some (Line.dll "atcore")
      ∧ isDeclLine (Line.dll "atcore") = true := by decide

/-- C8 (amended): the bare-name generator (gendeps) starts its output
with fifteen comment/blank lines — its banner, which contains the
do-not-edit notice and the project/license attribution — followed by
the first declaration (the dynamic-library path); the historical
gencode generator emits no banner. -/
theorem c8_theorem :
    ∀ tenv env argv,
      (gendepsMain tenv env argv).take 15
          = gendepsBanner ++ [Line.text "", Line.text "# Path to the dynamic library."]
        ∧ (∀ l ∈ gendepsBanner, isDeclLine l = false)
        ∧ Line.text "# *DO NOT EDIT* as this file is automatically generated for your machine."
            ∈ gendepsBanner
        ∧ Line.text "# This file is part of \"AndorCameras.jl\" released under the MIT license."
            ∈ gendepsBanner
        ∧ (gendepsMain tenv env argv)[15]? = some (Line.dll env.dll) := by
  intro tenv env argv
  exact ⟨rfl, by decide, by decide, by decide, rfl⟩

/-- C8 witness: the amended statement at a concrete environment. -/
theorem c8_witness :
    (gendepsMain tenvStd envStd []).take 15
        = gendepsBanner ++ [Line.text "", Line.text "# Path to the dynamic library."]
      ∧ isDeclLine (Line.text "#") = false
      ∧ (gendepsMain tenvStd envStd [])[15]? = some (Line.dll "libatcore.so") :=
  ⟨(c8_theorem tenvStd envStd []).1,
   (c8_theorem tenvStd envStd []).2.1 (Line.text "#") (by decide),
   (c8_theorem tenvStd envStd []).2.2.2.2⟩

/-! ### C3 -/

/-- Rank-constant lists are pairwise rank-monotone. -/
theorem pairwise_rank_of_const (r : Line → Nat) (k : Nat) :
    ∀ l : List Line, (∀ a ∈ l, r a = k) →
      l.Pairwise (fun a b => r a ≤ r b) := by
  intro l
  induction l with
  | nil => intro _; exact List.Pairwise.nil
  | cons a t ih =>
    intro h
    refine List.Pairwise.cons ?_ (ih fun b hb => h b (List.mem_cons_of_mem a hb))
    intro b hb
    rw [h a (List.mem_cons_self a t), h b (List.mem_cons_of_mem a hb)]

/-- The head part of gendeps output filtered to section lines is
exactly the type-alias block. -/
theorem filter_isSection_gendepsHead (env : BuildEnv) :
    (gendepsHead env).filter isSection = gendepsTypeAliases := rfl

/-- The tail part of gendeps output filtered to section lines is the
three constant groups in emission order. -/
theorem filter_isSection_gendepsTail (env : BuildEnv) :
    (gendepsTail env).filter isSection
      = (List.filterMap (defAtConst env.defines) sentinelCatalog
          ++ (if env.linux then linuxLines env else []))
        ++ List.filterMap (defAtConst env.defines) statusCatalog := by
  have hself : ∀ cat : List AtConst,
      (List.filterMap (defAtConst env.defines) cat).filter isSection
        = List.filterMap (defAtConst env.defines) cat := by
    intro cat
    refine List.filter_eq_self.mpr ?_
    intro a ha
    rcases mem_filterMap_defAtConst.mp ha with ⟨e, _, v, _, rfl⟩
    rfl
  have hite : (if env.linux then linuxLines env else []).filter isSection
      = (if env.linux then linuxLines env else []) := by
    cases hx : env.linux <;> simp [linuxLines, isSection]
  rw [gendepsTail]
  simp only [List.filter_append]
  rw [hself sentinelCatalog, hself statusCatalog, hite]
  simp [isSection]

/-- Every sentinel-section line has rank 1. -/
theorem rank_sentinel {env : BuildEnv} {a : Line}
    (ha : a ∈ List.filterMap (defAtConst env.defines) sentinelCatalog) :
    groupRank a = 1 := by
  rcases mem_filterMap_defAtConst.mp ha with ⟨e, he, v, _, rfl⟩
  have hb : e.bare ∈ sentinelNames := List.mem_map_of_mem AtConst.bare he
  simp [groupRank, hb]

/-- Every status-section line has rank 3. -/
theorem rank_status {env : BuildEnv} {a : Line}
    (ha : a ∈ List.filterMap (defAtConst env.defines) statusCatalog) :
    groupRank a = 3 := by
  have hdisj : ∀ e ∈ statusCatalog, ¬ e.bare ∈ sentinelNames := by decide
  rcases mem_filterMap_defAtConst.mp ha with ⟨e, he, v, _, rfl⟩
  simp [groupRank, hdisj e he]

/-- Every platform-extension line has rank 2. -/
theorem rank_linux {env : BuildEnv} {a : Line}
    (ha : a ∈ (if env.linux then linuxLines env else [])) :
    groupRank a = 2 := by
  cases hx : env.linux with
  | false => rw [hx] at ha; simp at ha
  | true =>
    rw [hx] at ha
    rcases List.mem_cons.mp ha with rfl | ha
    · rfl
    rcases List.mem_cons.mp ha with rfl | ha
    · rfl
    simp at ha

/-- A plain (host-macro) line occurs in gendeps output only when the
build host is Linux: such lines exist only inside the `#ifdef
__linux__` branch. -/
theorem linux_of_plain_mem {env : BuildEnv} {l : Line}
    (hl : l ∈ gendepsLines env) (hp : isPlainLine l = true) :
    env.linux = true := by
  rcases List.mem_append.mp hl with h | h
  · have := not_const_mem_gendepsHead h
    rw [isConstLine_of_isPlainLine hp] at this
    exact absurd this (by simp)
  rw [gendepsTail] at h
  rcases List.mem_append.mp h with h | h
  · rcases List.mem_append.mp h with h | h
    · rcases List.mem_append.mp h with h | h
      · rcases List.mem_append.mp h with h | h
        · rcases List.mem_cons.mp h with rfl | h
          · exact absurd hp (by simp [isPlainLine])
          rcases List.mem_cons.mp h with rfl | h
          · exact absurd hp (by simp [isPlainLine])
          exact absurd h (List.not_mem_nil l)
        · rcases mem_filterMap_defAtConst.mp h with ⟨e, _, v, _, rfl⟩
          exact absurd hp (by simp [isPlainLine])
      · by_cases hx : env.linux
        · exact hx
        · rw [if_neg hx] at h
          exact absurd h (List.not_mem_nil l)
    · rcases List.mem_cons.mp h with rfl | h
      · exact absurd hp (by simp [isPlainLine])
      rcases List.mem_cons.mp h with rfl | h
      · exact absurd hp (by simp [isPlainLine])
      exact absurd h (List.not_mem_nil l)
  · rcases mem_filterMap_defAtConst.mp h with ⟨e, _, v, _, rfl⟩
    exact absurd hp (by simp [isPlainLine])

/-- On a Linux build, both platform-extension lines are emitted. -/
theorem linuxLines_mem_gendepsLines {env : BuildEnv} (hx : env.linux = true) :
    ∀ l ∈ linuxLines env, l ∈ gendepsLines env := by
  intro l hl
  refine List.mem_append_right _ ?_
  rw [gendepsTail]
  refine List.mem_append_left _ (List.mem_append_left _
    (List.mem_append_right _ ?_))
  rw [if_pos hx]
  exact hl

/-- C3 (amended): the bare-name generator emits its sections in the
fixed order — type aliases, then handle/boolean sentinels, then
platform extensions, then status codes (rank-monotone in emission
order, so in particular every type-alias line precedes every constant
line); platform-extension lines exist only under the Linux branch, and
on Linux both are emitted.  (The claim fails for the historical
prefixed generator, whose handle sentinels follow the status codes —
see the counterexample.) -/
theorem c3_theorem (env : BuildEnv) :
    ((gendepsLines env).filter isSection).Pairwise
        (fun a b => groupRank a ≤ groupRank b)
      ∧ (∀ l ∈ gendepsLines env, isPlainLine l = true → env.linux = true)
      ∧ (env.linux = true → ∀ l ∈ linuxLines env, l ∈ gendepsLines env) := by
  refine ⟨?_, fun l hl hp => linux_of_plain_mem hl hp,
    fun hx => linuxLines_mem_gendepsLines hx⟩
  rw [gendepsLines, List.filter_append, filter_isSection_gendepsHead,
    filter_isSection_gendepsTail]
  have pw1 : gendepsTypeAliases.Pairwise (fun a b => groupRank a ≤ groupRank b) :=
    pairwise_rank_of_const _ 0 _ (by decide)
  have pw2 := pairwise_rank_of_const groupRank 1
    (List.filterMap (defAtConst env.defines) sentinelCatalog)
    (fun a ha => rank_sentinel ha)
  have pw3 := pairwise_rank_of_const groupRank 2
    (if env.linux then linuxLines env else [])
    (fun a ha => rank_linux ha)
  have pw4 := pairwise_rank_of_const groupRank 3
    (List.filterMap (defAtConst env.defines) statusCatalog)
    (fun a ha => rank_status ha)
  refine List.pairwise_append.mpr ⟨pw1, ?_, ?_⟩
  · refine List.pairwise_append.mpr
      ⟨List.pairwise_append.mpr ⟨pw2, pw3, ?_⟩, pw4, ?_⟩
    · intro a ha b hb
      rw [rank_sentinel ha, rank_linux hb]
      exact Nat.le_succ 1
    · intro a ha b hb
      rw [rank_status hb]
      rcases List.mem_append.mp ha with h | h
      · rw [rank_sentinel h]; omega
      · rw [rank_linux h]; omega
  · intro a ha b _
    have h0 : groupRank a = 0 := by revert a ha; decide
    rw [h0]
    exact Nat.zero_le _

/-- C3 counterexample: the claim, read over the historical prefixed
generator, is false: with `AT_SUCCESS` and `AT_HANDLE_SYSTEM` both
defined, gencode emits the status code before the handle sentinel, so
its section sequence is not ordered sentinels-then-status. -/
theorem c3_counterexample :
    ¬ ((gencodeLines envGc).filter isSection).Pairwise
        (fun a b => gencodeGroupRank a ≤ gencodeGroupRank b) := by
  decide

/-- C3 witness: the amended statement at a concrete Linux environment. -/
theorem c3_witness :
    ((gendepsLines envStd).filter isSection).Pairwise
        (fun a b => groupRank a ≤ groupRank b)
      ∧ Line.plain "USBDEVFS_RESET" 21780 " # ioctl() request to reset USB device"
          ∈ gendepsLines envStd :=
  ⟨(c3_theorem envStd).1,
   (c3_theorem envStd).2.2 rfl _ (by decide)⟩

/-! ### C4 -/

/-- A constant line emitted when an entry's guarding vendor macro is
defined is in the gendeps output (the `#ifdef` branch is taken). -/
theorem mem_gendepsLines_of_defined {env : BuildEnv} {e : AtConst} {v : Int}
    (he : e ∈ sentinelCatalog ++ statusCatalog)
    (hv : env.defines (atMacroName e) = some v) :
    Line.cnst e.bare e.typ v e.fmt ∈ gendepsLines env := by
  have hline : defAtConst env.defines e = some (Line.cnst e.bare e.typ v e.fmt) := by
    simp [defAtConst, hv]
  rcases List.mem_append.mp he with hs | hs
  · have hm : Line.cnst e.bare e.typ v e.fmt
        ∈ List.filterMap (defAtConst env.defines) sentinelCatalog :=
      List.mem_filterMap.mpr ⟨e, hs, hline⟩
    rw [gendepsLines, gendepsTail]
    exact List.mem_append_right _ (List.mem_append_left _ (List.mem_append_left _
      (List.mem_append_left _ (List.mem_append_right _ hm))))
  · have hm : Line.cnst e.bare e.typ v e.fmt
        ∈ List.filterMap (defAtConst env.defines) statusCatalog :=
      List.mem_filterMap.mpr ⟨e, hs, hline⟩
    rw [gendepsLines, gendepsTail]
    exact List.mem_append_right _ (List.mem_append_right _ hm)

/-- If a constant line named after a catalog entry is in the gendeps
output then that entry's vendor macro is defined with the line's
value. -/
theorem defined_of_mem_gendepsLines {env : BuildEnv} {e : AtConst} {v : Int}
    (hmem : Line.cnst e.bare e.typ v e.fmt ∈ gendepsLines env) :
    env.defines (atMacroName e) = some v := by
  rcases List.mem_append.mp hmem with h | h
  · have := not_const_mem_gendepsHead h
    simp [isConstLine] at this
  rw [gendepsTail] at h
  have fromFilterMap : ∀ cat : List AtConst,
      Line.cnst e.bare e.typ v e.fmt
          ∈ List.filterMap (defAtConst env.defines) cat →
        env.defines (atMacroName e) = some v := by
    intro cat hc
    rcases mem_filterMap_defAtConst.mp hc with ⟨e2, _, v2, hv2, heq⟩
    injection heq with h1 h2 h3 h4
    have hname : atMacroName e = atMacroName e2 := by
      rw [atMacroName, atMacroName, h1]
    rw [hname, hv2, h3]
  rcases List.mem_append.mp h with h | h
  · rcases List.mem_append.mp h with h | h
    · rcases List.mem_append.mp h with h | h
      · rcases List.mem_append.mp h with h | h
        · rcases List.mem_cons.mp h with h | h
          · exact absurd h (by simp)
          rcases List.mem_cons.mp h with h | h
          · exact absurd h (by simp)
          exact absurd h (List.not_mem_nil _)
        · exact fromFilterMap sentinelCatalog h
      · by_cases hx : env.linux
        · rw [if_pos hx] at h
          rcases List.mem_cons.mp h with h | h
          · exact absurd h (by simp)
          rcases List.mem_cons.mp h with h | h
          · exact absurd h (by simp)
          exact absurd h (List.not_mem_nil _)
        · rw [if_neg hx] at h
          exact absurd h (List.not_mem_nil _)
    · rcases List.mem_cons.mp h with h | h
      · exact absurd h (by simp)
      rcases List.mem_cons.mp h with h | h
      · exact absurd h (by simp)
      exact absurd h (List.not_mem_nil _)
  · exact fromFilterMap statusCatalog h

/-- C4: for every build environment, every constant line of the gendeps
output is named from the fixed static catalog; a vendor-macro entry's
line is present iff its same-named guarding macro is defined (with the
macro's value); and each platform-extension line is present iff the
host-OS symbol (`__linux__`) was defined.  An undefined macro merely
omits its line — generation always completes. -/
theorem c4_theorem (env : BuildEnv) :
    (∀ l ∈ gendepsLines env, isConstLine l = true → lineName l ∈ catalogNames)
      ∧ (∀ e ∈ sentinelCatalog ++ statusCatalog, ∀ v : Int,
          (Line.cnst e.bare e.typ v e.fmt ∈ gendepsLines env)
            ↔ env.defines (atMacroName e) = some v)
      ∧ ((Line.plain "USBDEVFS_RESET" env.usbdevfsReset
            " # ioctl() request to reset USB device" ∈ gendepsLines env)
          ↔ env.linux = true)
      ∧ ((Line.plain "O_WRONLY" env.oWronly "" ∈ gendepsLines env)
          ↔ env.linux = true) := by
  refine ⟨?_, ?_, ?_, ?_⟩
  · intro l hl hc
    rcases List.mem_append.mp hl with h | h
    · rw [not_const_mem_gendepsHead h] at hc
      exact absurd hc (by simp)
    rw [gendepsTail] at h
    have fromAt : ∀ cat : List AtConst, cat = sentinelCatalog ∨ cat = statusCatalog →
        l ∈ List.filterMap (defAtConst env.defines) cat →
          lineName l ∈ catalogNames := by
      intro cat hcat hc2
      rcases mem_filterMap_defAtConst.mp hc2 with ⟨e, he, v, _, rfl⟩
      have hb : e.bare ∈ (sentinelCatalog ++ statusCatalog).map AtConst.bare := by
        rcases hcat with rfl | rfl
        · exact List.mem_map_of_mem _ (List.mem_append_left _ he)
        · exact List.mem_map_of_mem _ (List.mem_append_right _ he)
      exact List.mem_append_left _ hb
    rcases List.mem_append.mp h with h | h
    · rcases List.mem_append.mp h with h | h
      · rcases List.mem_append.mp h with h | h
        · rcases List.mem_append.mp h with h | h
          · rcases List.mem_cons.mp h with rfl | h
            · exact absurd hc (by simp [isConstLine])
            rcases List.mem_cons.mp h with rfl | h
            · exact absurd hc (by simp [isConstLine])
            exact absurd h (List.not_mem_nil _)
          · exact fromAt sentinelCatalog (Or.inl rfl) h
        · by_cases hx : env.linux
          · rw [if_pos hx] at h
            rcases List.mem_cons.mp h with rfl | h
            · show "USBDEVFS_RESET" ∈ catalogNames
              decide
            rcases List.mem_cons.mp h with rfl | h
            · show "O_WRONLY" ∈ catalogNames
              decide
            exact absurd h (List.not_mem_nil _)
          · rw [if_neg hx] at h
            exact absurd h (List.not_mem_nil _)
      · rcases List.mem_cons.mp h with rfl | h
        · exact absurd hc (by simp [isConstLine])
        rcases List.mem_cons.mp h with rfl | h
        · exact absurd hc (by simp [isConstLine])
        exact absurd h (List.not_mem_nil _)
    · exact fromAt statusCatalog (Or.inr rfl) h
  · intro e he v
    exact ⟨fun hmem => defined_of_mem_gendepsLines hmem,
      fun hv => mem_gendepsLines_of_defined he hv⟩
  · constructor
    · intro hmem
      exact linux_of_plain_mem hmem rfl
    · intro hx
      exact linuxLines_mem_gendepsLines hx _ (List.mem_cons_self _ _)
  · constructor
    · intro hmem
      exact linux_of_plain_mem hmem rfl
    · intro hx
      refine linuxLines_mem_gendepsLines hx _ ?_
      exact List.mem_cons_of_mem _ (List.mem_cons_self _ _)

/-- C4 witness: the statement at a concrete environment — `AT_SUCCESS`
is defined in `envStd`, so its line is present; emptiness of the guard
kills the line in `envNone`. -/
theorem c4_witness :
    (Line.cnst "SUCCESS" "STATUS" 0 Fmt.dec ∈ gendepsLines envStd)
      ∧ ¬ (Line.cnst "ERR_NODATA" "STATUS" 11 Fmt.dec ∈ gendepsLines envNone) := by
  constructor
  · exact ((c4_theorem envStd).2.1 ⟨"SUCCESS", "STATUS", Fmt.dec⟩ (by decide) 0).mpr
      (by decide)
  · intro hmem
    have := ((c4_theorem envNone).2.1 ⟨"ERR_NODATA", "STATUS", Fmt.dec⟩
      (by decide) 11).mp hmem
    exact absurd this (by decide)
